import Mathlib

/-!
Verification of the CryptoDrive file controller
(`controllers` module: `checkType`, `checkPassphrase`, `uploadFiles`,
`getAll`, `download`, `delete`) against its natural-language
specification.

The controller source is embedded shallowly: Express middleware/handler
outcomes become an inductive result type, the GridFS bucket becomes a
list of stored-file records, and the Mongo key collection becomes a list
of key records.  The cryptographic helpers (`encryptStream`,
`decryptStream` from `utils/cryptoFeatures`) and `correctPassphrase`
of the key model are not part of the given source tree; they are
modelled from the specification, as noted in their doc comments.
-/

set_option autoImplicit false

namespace CryptoDrive

/-- Outcome of an Express middleware / route handler as observed by the
caller: `success s` is `res.status(s).json({status: "success"})`,
`nextOk` is a plain `next()` (control passes to the next handler),
`appErr msg code` is `next(new AppError(msg, code))` (the status is
`none` when the code was passed to `next` instead of to the `AppError`
constructor, leaving the error without a status), and `thrown msg` is an
exception escaping the handler, caught by `catchAsync` and surfaced as a
generic failure. -/
inductive HRes where
  | success (status : Nat)
  | nextOk
  | appErr (msg : String) (status : Option Nat)
  | thrown (msg : String)
  deriving DecidableEq, Repr

/-- Error raised by the crypto layer on decryption. -/
inductive CryptoError where
  | authenticationError
  deriving DecidableEq, Repr

/-- Modelled from the spec: the symmetric key derived from a passphrase
via a slow, salted key-derivation function.  The KDF is abstracted as
the injective pairing of the passphrase with the salt, which captures
exactly the property the spec relies on: equal passphrase and salt give
the same key, and different passphrases give different keys. -/
structure DerivedKey where
  pass : String
  salt : Nat
  deriving DecidableEq, Repr

/-- Modelled from the spec: key derivation from a passphrase and a salt. -/
def deriveKey (passphrase : String) (salt : Nat) : DerivedKey :=
  ⟨passphrase, salt⟩

/-- Modelled from the spec: the keystream of the stream cipher
(Xchacha20 in the source), as an arbitrary byte-valued function of the
key, the nonce and the stream position. -/
def keystream (k : DerivedKey) (nonce i : Nat) : Nat :=
  (k.salt + nonce + i) % 256

/-- Modelled from the spec: applying the stream cipher, xoring each
plaintext byte with the keystream byte at its position.  Xor is its own
inverse, so the same function both encrypts and decrypts. -/
def applyKeystream (k : DerivedKey) (nonce : Nat) : Nat → List Nat → List Nat
  | _, [] => []
  | i, b :: rest => (b ^^^ keystream k nonce i) :: applyKeystream k nonce (i + 1) rest

/-- Modelled from the spec: the authenticated-encryption tag.  The ideal
MAC is represented by the pair of the key and the authenticated message,
so that verification succeeds exactly for the key that produced the tag
(ideal unforgeability, the property the spec assumes of Poly1305). -/
def macTag (k : DerivedKey) (body : List Nat) : DerivedKey × List Nat :=
  (k, body)

/-- Modelled from the spec: the self-contained authenticated ciphertext
produced by `encryptStream` — the salt and nonce are bound into the
output so that decryption needs only the passphrase. -/
structure CipherBlob where
  salt : Nat
  nonce : Nat
  tag : DerivedKey × List Nat
  body : List Nat
  deriving DecidableEq, Repr

/-- Modelled from the spec: `encryptStream` from `utils/cryptoFeatures`
(not under the given source tree).  Derives a key from the passphrase
and the salt, encrypts the data with the keystream, and binds salt,
nonce and authentication tag into the output.  The caller supplies the
fresh salt and nonce (randomness is external to the model). -/
def encryptStream (data : List Nat) (passphrase : String) (salt nonce : Nat) :
    CipherBlob :=
  let k := deriveKey passphrase salt
  let body := applyKeystream k nonce 0 data
  ⟨salt, nonce, macTag k body, body⟩

/-- Modelled from the spec: `decryptStream` from `utils/cryptoFeatures`
(not under the given source tree).  Re-derives the key from the embedded
salt and the supplied passphrase, verifies the authentication tag, and
only then decrypts; on tag mismatch it fails with `AuthenticationError`
and returns no bytes. -/
def decryptStream (blob : CipherBlob) (passphrase : String) :
    Except CryptoError (List Nat) :=
  let k := deriveKey passphrase blob.salt
  if macTag k blob.body = blob.tag then
    Except.ok (applyKeystream k blob.nonce 0 blob.body)
  else
    Except.error CryptoError.authenticationError

/-- A file as delivered by `express-fileupload` in `req.files`: name,
raw byte buffer, size, client-declared mimetype and md5 digest. -/
structure UploadedFile where
  name : String
  data : List Nat
  size : Nat
  mimetype : String
  md5 : String
  deriving DecidableEq, Repr

/-- The `file` field of `req.files`: in JavaScript it is `undefined`
when no file was sent, a single file object, or an array of file
objects. -/
inductive FileField where
  | absent
  | single (f : UploadedFile)
  | array (fs : List UploadedFile)
  deriving DecidableEq, Repr

/-- The `req.files` object of `express-fileupload`; `none` models the
JavaScript `null`/`undefined` object on which any field access throws. -/
structure FilesObj where
  file : FileField
  deriving DecidableEq, Repr

/-- The part of the upload request the handlers read: `req.files`. -/
structure UploadReq where
  files : Option FilesObj
  deriving DecidableEq, Repr

/-- Model of `fromBuffer` from the external `file-type` library: magic
number detection on the leading bytes, `none` (JavaScript `undefined`)
when no known signature matches.  A few representative signatures stand
in for the full table of the library. -/
def fromBuffer (data : List Nat) : Option String :=
  if data.take 4 = [0x89, 0x50, 0x4E, 0x47] then some "image/png"
  else if data.take 4 = [0x25, 0x50, 0x44, 0x46] then some "application/pdf"
  else if data.take 3 = [0xFF, 0xD8, 0xFF] then some "image/jpeg"
  else if data.take 2 = [0x4D, 0x5A] then some "application/x-msdownload"
  else none

/-- The `fileList` normalisation both `checkType` and `uploadFiles`
perform: wrap a non-array `req.files.file` in a singleton list.  When
the field is `undefined` the pushed element is the JavaScript
`undefined`, modelled as `none`. -/
def extractFileList (fo : FilesObj) : List (Option UploadedFile) :=
  match fo.file with
  | FileField.array fs => fs.map some
  | FileField.single f => [some f]
  | FileField.absent => [none]

/-- The `for (const file of fileList)` loop of `checkType`, in source
order: `fromBuffer(file.data)` is evaluated first (throwing a TypeError
if `file` is `undefined`, and again on `.mime` if detection returned
`undefined`), then the `req.files == null` test, then the allow-list
membership test; the first failing file aborts the whole loop. -/
def checkTypeLoop (whiteList : List String) (filesIsNull : Bool) :
    List (Option UploadedFile) → HRes
  | [] => HRes.nextOk
  | none :: _ => HRes.thrown "TypeError: cannot read data of undefined"
  | some f :: rest =>
      match fromBuffer f.data with
      | none => HRes.thrown "TypeError: cannot read mime of undefined"
      | some mime =>
          if filesIsNull then HRes.appErr "Please provide a file!" (some 400)
          else if mime ∈ whiteList then checkTypeLoop whiteList filesIsNull rest
          else HRes.appErr "File type not allowed" (some 415)

/-- The `checkType` middleware: dereferences `req.files.file` (throwing
when `req.files` is null), normalises it to a list, and sniffs every
file against the allow-list. -/
def checkType (whiteList : List String) (req : UploadReq) : HRes :=
  match req.files with
  | none => HRes.thrown "TypeError: cannot read file of null"
  | some fo => checkTypeLoop whiteList (req.files.isNone) (extractFileList fo)

/-- One GridFS file document of the `uploads` bucket: `_id`, `filename`,
`contentType`, and the `metadata` fields the handlers use (`id` is the
owner identity decoded from the JWT, `md5` the client digest).  The
encrypted payload chunks are carried as the stored `CipherBlob`. -/
structure StoredFile where
  fileId : Nat
  filename : String
  contentType : String
  ownerId : String
  md5 : String
  content : CipherBlob
  deriving DecidableEq, Repr

/-- A `_id` not used by any stored file, for `openUploadStream`. -/
def freshId (store : List StoredFile) : Nat :=
  (store.map StoredFile.fileId).foldr max 0 + 1

/-- One iteration of the `uploadFiles` loop: encrypt the buffer with the
request passphrase and store it through `openUploadStream` as a new
GridFS file tagged with the owner identity and file metadata.  The salt
and nonce for `encryptStream` are fresh per object; the model draws
them from the fresh file id. -/
def uploadOne (store : List StoredFile) (ownerId : String) (f : UploadedFile)
    (passphrase : String) : List StoredFile :=
  let fid := freshId store
  store ++ [{ fileId := fid
              filename := f.name
              contentType := f.mimetype
              ownerId := ownerId
              md5 := f.md5
              content := encryptStream f.data passphrase fid (fid + 1) }]

/-- The `for (const file of fileList)` loop of `uploadFiles`: files are
written in order; destructuring a JavaScript `undefined` entry throws,
leaving the files already written in the store. -/
def uploadLoop (store : List StoredFile) (ownerId : String)
    (passphrase : String) : List (Option UploadedFile) → HRes × List StoredFile
  | [] => (HRes.success 200, store)
  | none :: _ => (HRes.thrown "TypeError: cannot destructure undefined", store)
  | some f :: rest => uploadLoop (uploadOne store ownerId f passphrase) ownerId passphrase rest

/-- The `uploadFiles` handler: normalises `req.files.file` exactly like
`checkType`, encrypts and stores every file, then answers 200. -/
def uploadFiles (store : List StoredFile) (ownerId : String) (req : UploadReq)
    (passphrase : String) : HRes × List StoredFile :=
  match req.files with
  | none => (HRes.thrown "TypeError: cannot read file of null", store)
  | some fo => uploadLoop store ownerId passphrase (extractFileList fo)

/-- The upload route as mounted: the `checkType` middleware gates
`uploadFiles`, which runs only when `checkType` called `next()` with no
error. -/
def handleUpload (whiteList : List String) (store : List StoredFile)
    (ownerId : String) (req : UploadReq) (passphrase : String) :
    HRes × List StoredFile :=
  match checkType whiteList req with
  | HRes.nextOk => uploadFiles store ownerId req passphrase
  | e => (e, store)

/-- The `getAll` handler: `gridfsBucket.find({"metadata.id": id})`, then
404 `failed` when nothing was found, else 200 with the file documents. -/
def getAll (store : List StoredFile) (ownerId : String) :
    Except (String × Nat) (List StoredFile) :=
  let files := store.filter (fun f => f.ownerId = ownerId)
  if files.isEmpty then Except.error ("failed", 404)
  else Except.ok files

/-- Outcome of the `download` handler: `appErr` is a returned
`next(new AppError(msg, code))`; `sent` is the decrypted payload piped
to the response, with the flag recording whether the non-returning
`new next(new AppError("Permission denied!", 403))` statement fired on
the way (the source lacks a `return` there, so the stream is opened and
sent regardless); `fault` is `decryptStream` rejecting inside the
`end` event callback — an unhandled rejection, after which no plaintext
byte reaches the response. -/
inductive DlRes where
  | appErr (msg : String) (status : Nat)
  | sent (signaled403 : Bool) (bytes : List Nat)
  | fault (signaled403 : Bool)
  deriving DecidableEq, Repr

/-- The query both `download` and `delete` issue:
`find({"metadata.id": id, filename: name})`. -/
def findByOwnerAndName (store : List StoredFile) (ownerId name : String) :
    List StoredFile :=
  store.filter (fun f => f.ownerId = ownerId ∧ f.filename = name)

/-- The `download` handler: query by owner and filename; 404 when the
result is empty; re-check `files[0].metadata.id != id` (without
returning); buffer every ciphertext chunk of `files[0]`, decrypt the
whole buffer with the passphrase header, and pipe the plaintext — or
reject without emitting anything when decryption fails. -/
def download (store : List StoredFile) (ownerId name passphrase : String) :
    DlRes :=
  match findByOwnerAndName store ownerId name with
  | [] => DlRes.appErr "Not found!" 404
  | f :: _ =>
      let signaled := decide (f.ownerId ≠ ownerId)
      match decryptStream f.content passphrase with
      | Except.ok plain => DlRes.sent signaled plain
      | Except.error _ => DlRes.fault signaled

/-- The `delete` handler: same owner-and-filename query; 404 when
empty; a returning 403 when `files[0].metadata.id != id`; else
`gridfsBucket.delete(files[0]._id)` removes that file document with all
its chunks, and the handler answers 200. -/
def deleteFile (store : List StoredFile) (ownerId name : String) :
    HRes × List StoredFile :=
  match findByOwnerAndName store ownerId name with
  | [] => (HRes.appErr "Not found!" (some 404), store)
  | f :: _ =>
      if f.ownerId ≠ ownerId then
        (HRes.appErr "Permission denied!" (some 403), store)
      else
        (HRes.success 200, store.filter (fun g => g.fileId ≠ f.fileId))

/-- Modelled from the spec: the salted irreversible passphrase hash the
key model stores (the raw passphrase never persists).  Abstracted as an
injective tagging of the passphrase. -/
def hashPassphrase (s : String) : String :=
  String.append "bcrypt$" s

/-- One document of the `Key` collection: `_id`, display name, owning
user, the stored passphrase hash, and the usage counter `times`. -/
structure KeyRecord where
  keyId : String
  name : String
  user : String
  passphrase : String
  times : Nat
  deriving DecidableEq, Repr

/-- Modelled from the spec: the `correctPassphrase` comparison of the
key model, of a candidate passphrase against the stored hash. -/
def correctPassphrase (candidate storedHash : String) : Bool :=
  hashPassphrase candidate = storedHash

/-- `Key.findOne({_id: keyID})`. -/
def findKey (vault : List KeyRecord) (keyID : String) : Option KeyRecord :=
  vault.find? (fun k => k.keyId = keyID)

/-- `Key.findOneAndUpdate({_id: keyID}, {$inc: {times: 1}},
{upsert: true})`: increment `times` on the document with that `_id`
(`_id` is unique in the collection), or insert a fresh document with
`times = 1` when none matches. -/
def incTimes (vault : List KeyRecord) (keyID : String) : List KeyRecord :=
  match findKey vault keyID with
  | some _ =>
      vault.map (fun k => if k.keyId = keyID then { k with times := k.times + 1 } else k)
  | none => vault ++ [{ keyId := keyID, name := "", user := "", passphrase := "", times := 1 }]

/-- The `checkPassphrase` middleware, after the method dispatch has
extracted the key id and passphrase from the body (POST) or the headers
(GET); `none` models a missing field and the empty string is falsy in
the `!keyID || !passphrase` test.  An unknown key id leaves `key` null,
so `key.correctPassphrase` throws; a failed comparison returns before
the counter update; a successful one increments `times` and passes. -/
def checkPassphrase (vault : List KeyRecord)
    (keyID passphrase : Option String) : HRes × List KeyRecord :=
  match keyID, passphrase with
  | some kid, some pass =>
      if kid = "" ∨ pass = "" then
        (HRes.appErr "Please provide a key and passphrase" none, vault)
      else
        match findKey vault kid with
        | none => (HRes.thrown "TypeError: cannot read correctPassphrase of null", vault)
        | some k =>
            if correctPassphrase pass k.passphrase then
              (HRes.nextOk, incTimes vault kid)
            else
              (HRes.appErr "Incorrect key passphrase" none, vault)
  | _, _ => (HRes.appErr "Please provide a key and passphrase" none, vault)

theorem applyKeystream_involutive (k : DerivedKey) (nonce : Nat) :
    ∀ (i : Nat) (data : List Nat),
      applyKeystream k nonce i (applyKeystream k nonce i data) = data := by
  intro i data
  induction data generalizing i with
  | nil => rfl
  | cons b rest ih =>
      simp [applyKeystream, Nat.xor_cancel_right, ih]

theorem decryptStream_encryptStream (P : List Nat) (K : String) (salt nonce : Nat) :
    decryptStream (encryptStream P K salt nonce) K = Except.ok P := by
  simp [decryptStream, encryptStream, applyKeystream_involutive]

theorem decryptStream_encryptStream_wrong (P : List Nat) (K1 K2 : String)
    (salt nonce : Nat) (h : K1 ≠ K2) :
    decryptStream (encryptStream P K1 salt nonce) K2
      = Except.error CryptoError.authenticationError := by
  have hne : deriveKey K2 salt ≠ deriveKey K1 salt := by
    intro hk
    exact h ((DerivedKey.mk.injEq _ _ _ _).mp hk).1.symm
  simp [decryptStream, encryptStream, macTag, hne]

theorem findByOwnerAndName_append_fresh (store : List StoredFile) (X name : String)
    (nf : StoredFile) (hnf : nf.ownerId = X ∧ nf.filename = name)
    (h : ∀ g ∈ store, ¬(g.ownerId = X ∧ g.filename = name)) :
    findByOwnerAndName (store ++ [nf]) X name = [nf] := by
  unfold findByOwnerAndName
  rw [List.filter_append]
  have h1 : store.filter (fun f => decide (f.ownerId = X ∧ f.filename = name)) = [] := by
    rw [List.filter_eq_nil_iff]
    intro g hg
    simpa using h g hg
  have h2 : [nf].filter (fun f => decide (f.ownerId = X ∧ f.filename = name)) = [nf] := by
    simp [List.filter, hnf.1, hnf.2]
  rw [h1, h2, List.nil_append]

theorem uploadFiles_single_eq (store : List StoredFile) (X : String)
    (f : UploadedFile) (K : String) :
    uploadFiles store X ⟨some ⟨FileField.single f⟩⟩ K
      = (HRes.success 200, uploadOne store X f K) := rfl

theorem uploadOne_ownerId (store : List StoredFile) (X : String)
    (f : UploadedFile) (K : String) :
    uploadOne store X f K
      = store ++ [{ fileId := freshId store
                    filename := f.name
                    contentType := f.mimetype
                    ownerId := X
                    md5 := f.md5
                    content := encryptStream f.data K (freshId store) (freshId store + 1) }] := rfl

theorem download_uploadOne (store : List StoredFile) (X : String)
    (f : UploadedFile) (K pass : String)
    (h : ∀ g ∈ store, ¬(g.ownerId = X ∧ g.filename = f.name)) :
    download (uploadOne store X f K) X f.name pass
      = match decryptStream (encryptStream f.data K (freshId store) (freshId store + 1)) pass with
        | Except.ok plain => DlRes.sent false plain
        | Except.error _ => DlRes.fault false := by
  rw [uploadOne_ownerId]
  unfold download
  rw [findByOwnerAndName_append_fresh store X f.name _ ⟨rfl, rfl⟩ h]
  simp

/-- C1: for every plaintext byte sequence P and passphrase K, decrypting
(with K) the ciphertext produced by encrypting P with K yields exactly P;
consequently downloading an object just uploaded with passphrase K (its
(owner, filename) pair being fresh, so the query finds the new object)
streams back exactly the uploaded bytes. -/
theorem c1_decrypt_encrypt_roundtrip :
    (∀ (P : List Nat) (K : String) (salt nonce : Nat),
        decryptStream (encryptStream P K salt nonce) K = Except.ok P) ∧
    (∀ (store : List StoredFile) (X : String) (f : UploadedFile) (K : String),
        (∀ g ∈ store, ¬(g.ownerId = X ∧ g.filename = f.name)) →
        download (uploadFiles store X ⟨some ⟨FileField.single f⟩⟩ K).2 X f.name K
          = DlRes.sent false f.data) := by
  constructor
  · exact decryptStream_encryptStream
  · intro store X f K h
    rw [uploadFiles_single_eq]
    rw [download_uploadOne store X f K K h]
    rw [decryptStream_encryptStream]

/-- Witness for C1 at a concrete input: uploading a PNG payload as owner
X with passphrase pw into the empty store and downloading it back with
pw returns exactly the uploaded bytes. -/
theorem c1_decrypt_encrypt_roundtrip_witness :
    download (uploadFiles [] "X"
        ⟨some ⟨FileField.single ⟨"a.png", [137, 80, 78, 71, 1, 2], 6, "image/png", "md5a"⟩⟩⟩
        "pw").2 "X" "a.png" "pw"
      = DlRes.sent false [137, 80, 78, 71, 1, 2] :=
  c1_decrypt_encrypt_roundtrip.2 [] "X"
    ⟨"a.png", [137, 80, 78, 71, 1, 2], 6, "image/png", "md5a"⟩ "pw"
    (by intro g hg; simp at hg)

/-- C2: decrypting with a passphrase different from the one used to
encrypt fails with AuthenticationError and yields no plaintext bytes;
at the download route this means the handler faults after decryption
rejects and pipes no plaintext to the caller (the `fault` outcome
carries no bytes). -/
theorem c2_wrong_passphrase_authentication_error :
    (∀ (P : List Nat) (K1 K2 : String) (salt nonce : Nat), K1 ≠ K2 →
        decryptStream (encryptStream P K1 salt nonce) K2
          = Except.error CryptoError.authenticationError) ∧
    (∀ (store : List StoredFile) (X : String) (f : UploadedFile) (K1 K2 : String),
        K1 ≠ K2 →
        (∀ g ∈ store, ¬(g.ownerId = X ∧ g.filename = f.name)) →
        download (uploadFiles store X ⟨some ⟨FileField.single f⟩⟩ K1).2 X f.name K2
          = DlRes.fault false) := by
  constructor
  · intro P K1 K2 salt nonce h
    exact decryptStream_encryptStream_wrong P K1 K2 salt nonce h
  · intro store X f K1 K2 hK h
    rw [uploadFiles_single_eq]
    rw [download_uploadOne store X f K1 K2 h]
    rw [decryptStream_encryptStream_wrong _ _ _ _ _ hK]

/-- Witness for C2 at a concrete input: a payload encrypted with pw and
decrypted with wrong fails with AuthenticationError, and the download of
an object uploaded under pw, requested with wrong, ends in the no-bytes
fault outcome. -/
theorem c2_wrong_passphrase_authentication_error_witness :
    decryptStream (encryptStream [1, 2, 3] "pw" 5 6) "wrong"
        = Except.error CryptoError.authenticationError ∧
    download (uploadFiles [] "X"
        ⟨some ⟨FileField.single ⟨"a.png", [137, 80, 78, 71, 1, 2], 6, "image/png", "md5a"⟩⟩⟩
        "pw").2 "X" "a.png" "wrong"
      = DlRes.fault false :=
  ⟨c2_wrong_passphrase_authentication_error.1 [1, 2, 3] "pw" "wrong" 5 6 (by decide),
   c2_wrong_passphrase_authentication_error.2 [] "X"
     ⟨"a.png", [137, 80, 78, 71, 1, 2], 6, "image/png", "md5a"⟩ "pw" "wrong"
     (by decide) (by intro g hg; simp at hg)⟩

/-- A stored object owned by identity Y, as produced by encrypting a
PNG payload under passphrase pw. -/
def storedY : StoredFile :=
  { fileId := 1
    filename := "a.png"
    contentType := "image/png"
    ownerId := "Y"
    md5 := "md5a"
    content := encryptStream [137, 80, 78, 71, 1, 2] "pw" 1 2 }

/-- A one-object store whose only object belongs to Y. -/
def storeOtherOwner : List StoredFile := [storedY]

/-- Counterexample to C3 as stated: with the store holding exactly one
object named a.png owned by Y, a download of a.png by caller X fails
with the 404 Not found error, not with the 403 Permission denied error
the claim requires — the owner-filtered query hides the foreign object,
so the secondary ownership branch can never produce the 403. -/
theorem c3_counterexample_not_forbidden :
    download storeOtherOwner "X" "a.png" "pw" = DlRes.appErr "Not found!" 404 ∧
    DlRes.appErr "Not found!" 404 ≠ DlRes.appErr "Permission denied!" 403 := by
  exact ⟨rfl, by decide⟩

/-- C3 amended: when every stored object carrying the requested
filename is owned by an identity other than the caller, the download
fails with the 404 Not found error (the query
`find({"metadata.id": id, filename: name})` is owner-filtered, so the
foreign object is invisible and the in-handler re-check of the owner
field never fires), and no file content is sent. -/
theorem c3_foreign_object_download_not_found (store : List StoredFile)
    (X name pass : String)
    (_hex : ∃ g ∈ store, g.filename = name)
    (hall : ∀ g ∈ store, g.filename = name → g.ownerId ≠ X) :
    download store X name pass = DlRes.appErr "Not found!" 404 := by
  have hempty : findByOwnerAndName store X name = [] := by
    unfold findByOwnerAndName
    rw [List.filter_eq_nil_iff]
    intro g hg
    simp only [decide_eq_true_eq, not_and]
    intro h1 h2
    exact hall g hg h2 h1
  unfold download
  rw [hempty]

/-- Witness for the amended C3 at a concrete input: the one-object
store owned by Y, downloaded by X. -/
theorem c3_foreign_object_download_not_found_witness :
    download storeOtherOwner "X" "a.png" "pw" = DlRes.appErr "Not found!" 404 :=
  c3_foreign_object_download_not_found storeOtherOwner "X" "a.png" "pw"
    ⟨storedY, List.mem_singleton_self _, rfl⟩
    (by
      intro g hg _
      rw [storeOtherOwner, List.mem_singleton] at hg
      subst hg
      decide)

theorem checkTypeLoop_no_missing_file_error (wl : List String) :
    ∀ l : List (Option UploadedFile),
      checkTypeLoop wl false l ≠ HRes.appErr "Please provide a file!" (some 400) := by
  intro l
  induction l with
  | nil => simp [checkTypeLoop]
  | cons hd tl ih =>
      cases hd with
      | none => simp [checkTypeLoop]
      | some f =>
          simp only [checkTypeLoop]
          cases fromBuffer f.data with
          | none => simp
          | some mime =>
              by_cases hm : mime ∈ wl
              · simpa [hm] using ih
              · simp [hm]

/-- C10: the 400 Please provide a file branch of `checkType` is
unreachable — `req.files.file` is dereferenced and each buffer sniffed
before the `req.files == null` test runs, so no request can receive
that response; a request carrying no files (null `req.files`, or an
absent `file` field) makes the middleware throw a TypeError that
surfaces as a generic failure instead. -/
theorem c10_missing_file_branch_unreachable (wl : List String) (req : UploadReq) :
    checkType wl req ≠ HRes.appErr "Please provide a file!" (some 400) ∧
    ((req.files = none ∨ ∃ fo, req.files = some fo ∧ fo.file = FileField.absent) →
        checkType wl req = HRes.thrown "TypeError: cannot read file of null" ∨
        checkType wl req = HRes.thrown "TypeError: cannot read data of undefined") := by
  obtain ⟨files⟩ := req
  cases files with
  | none =>
      refine ⟨by simp [checkType], fun _ => Or.inl rfl⟩
  | some fo =>
      constructor
      · exact checkTypeLoop_no_missing_file_error wl (extractFileList fo)
      · intro h
        rcases h with h | ⟨fo2, hfo, habs⟩
        · exact absurd h (by simp)
        · right
          have hfo2 : fo = fo2 := by
            simpa using hfo
          subst hfo2
          show checkTypeLoop wl false (extractFileList fo) = _
          rw [extractFileList, habs]
          rfl

/-- Witness for C10 at concrete inputs: a request with null `req.files`
is never answered with the 400 response and instead faults
generically. -/
theorem c10_missing_file_branch_unreachable_witness :
    checkType ["image/png"] ⟨none⟩ ≠ HRes.appErr "Please provide a file!" (some 400) ∧
    (checkType ["image/png"] ⟨none⟩ = HRes.thrown "TypeError: cannot read file of null" ∨
     checkType ["image/png"] ⟨none⟩ = HRes.thrown "TypeError: cannot read data of undefined") :=
  ⟨(c10_missing_file_branch_unreachable ["image/png"] ⟨none⟩).1,
   (c10_missing_file_branch_unreachable ["image/png"] ⟨none⟩).2 (Or.inl rfl)⟩

/-- A file with no recognised magic-number signature: the `file-type`
library returns `undefined` for it. -/
def unknownFile : UploadedFile :=
  ⟨"mystery.bin", [0, 0, 0, 0], 4, "application/octet-stream", "md5u"⟩

/-- A file whose leading bytes carry the PDF signature. -/
def pdfFile : UploadedFile :=
  ⟨"r.pdf", [0x25, 0x50, 0x44, 0x46, 9], 5, "application/pdf", "md5p"⟩

/-- Counterexample to C4 as stated: a batch holding one file whose
sniffed type is Unknown (outside any allow-list) is rejected with a
generic thrown TypeError — `fromBuffer` returns `undefined` and the
`.mime` access throws — not with the 415 UnsupportedTypeError the
claim requires.  No file is persisted. -/
theorem c4_counterexample_unknown_type_not_415 :
    handleUpload ["image/png"] [] "X" ⟨some ⟨FileField.array [unknownFile]⟩⟩ "pw"
      = (HRes.thrown "TypeError: cannot read mime of undefined", []) ∧
    HRes.thrown "TypeError: cannot read mime of undefined"
      ≠ HRes.appErr "File type not allowed" (some 415) := by
  exact ⟨rfl, by decide⟩

theorem checkTypeLoop_reject (wl : List String) :
    ∀ fs : List UploadedFile,
      (∃ f ∈ fs, ∀ m, fromBuffer f.data = some m → m ∉ wl) →
      checkTypeLoop wl false (fs.map some) ≠ HRes.nextOk := by
  intro fs
  induction fs with
  | nil => rintro ⟨f, hf, _⟩; simp at hf
  | cons f tl ih =>
      rintro ⟨g, hg, hgbad⟩
      simp only [List.map_cons, checkTypeLoop]
      cases hfb : fromBuffer f.data with
      | none => simp
      | some mime =>
          by_cases hm : mime ∈ wl
          · simp only [hm, if_true]
            rcases List.mem_cons.mp hg with rfl | hgtl
            · exact absurd (hgbad mime hfb) (by simp [hm])
            · exact ih ⟨g, hgtl, hgbad⟩
          · simp [hm]

theorem checkTypeLoop_415 (wl : List String) :
    ∀ fs : List UploadedFile,
      (∀ f ∈ fs, (fromBuffer f.data).isSome) →
      (∃ f ∈ fs, ∀ m, fromBuffer f.data = some m → m ∉ wl) →
      checkTypeLoop wl false (fs.map some)
        = HRes.appErr "File type not allowed" (some 415) := by
  intro fs
  induction fs with
  | nil => rintro _ ⟨f, hf, _⟩; simp at hf
  | cons f tl ih =>
      rintro hall ⟨g, hg, hgbad⟩
      simp only [List.map_cons, checkTypeLoop]
      cases hfb : fromBuffer f.data with
      | none =>
          have := hall f (List.mem_cons_self f tl)
          rw [hfb] at this
          simp at this
      | some mime =>
          by_cases hm : mime ∈ wl
          · simp only [hm, if_true]
            rcases List.mem_cons.mp hg with rfl | hgtl
            · exact absurd (hgbad mime hfb) (by simp [hm])
            · exact ih (fun x hx => hall x (List.mem_cons_of_mem f hx)) ⟨g, hgtl, hgbad⟩
          · simp [hm]

/-- C4 amended: if some file of an uploaded batch sniffs to a type
outside the allow-list (including the undetectable case, where the
sniff yields no type at all), the whole batch is rejected before any
persistence and zero files are stored; the rejection is the 415
UnsupportedTypeError exactly when every file in the batch has a
detectable type, while an undetectable file makes `checkType` throw a
generic TypeError instead (still persisting nothing). -/
theorem c4_batch_rejected_before_persistence (wl : List String)
    (store : List StoredFile) (oid : String) (fs : List UploadedFile)
    (pass : String)
    (hbad : ∃ f ∈ fs, ∀ m, fromBuffer f.data = some m → m ∉ wl) :
    (handleUpload wl store oid ⟨some ⟨FileField.array fs⟩⟩ pass).2 = store ∧
    ((∀ f ∈ fs, (fromBuffer f.data).isSome) →
        handleUpload wl store oid ⟨some ⟨FileField.array fs⟩⟩ pass
          = (HRes.appErr "File type not allowed" (some 415), store)) := by
  have hne : checkType wl ⟨some ⟨FileField.array fs⟩⟩ ≠ HRes.nextOk :=
    checkTypeLoop_reject wl fs hbad
  constructor
  · unfold handleUpload
    cases hct : checkType wl ⟨some ⟨FileField.array fs⟩⟩ with
    | nextOk => exact absurd hct hne
    | success s => rfl
    | appErr m c => rfl
    | thrown m => rfl
  · intro hall
    have hct : checkType wl ⟨some ⟨FileField.array fs⟩⟩
        = HRes.appErr "File type not allowed" (some 415) :=
      checkTypeLoop_415 wl fs hall hbad
    unfold handleUpload
    rw [hct]

/-- Witness for the amended C4 at a concrete input: a one-file batch
whose PDF sniffs outside the png-only allow-list is rejected with the
415 error and the empty store stays empty. -/
theorem c4_batch_rejected_before_persistence_witness :
    handleUpload ["image/png"] [] "X" ⟨some ⟨FileField.array [pdfFile]⟩⟩ "pw"
      = (HRes.appErr "File type not allowed" (some 415), []) := by
  have hbad : ∃ f ∈ [pdfFile], ∀ m, fromBuffer f.data = some m → m ∉ ["image/png"] := by
    refine ⟨pdfFile, List.mem_singleton_self _, ?_⟩
    intro m hm
    have hfb : fromBuffer pdfFile.data = some "application/pdf" := rfl
    rw [hfb] at hm
    injection hm with h
    subst h
    decide
  have hall : ∀ f ∈ [pdfFile], (fromBuffer f.data).isSome := by
    intro f hf
    rw [List.mem_singleton] at hf
    subst hf
    rfl
  exact (c4_batch_rejected_before_persistence ["image/png"] [] "X" [pdfFile] "pw" hbad).2 hall

/-- An upload request carrying a single PNG file named a.png. -/
def reqSingleA : UploadReq :=
  ⟨some ⟨FileField.single ⟨"a.png", [137, 80, 78, 71, 1, 2], 6, "image/png", "md5a"⟩⟩⟩

/-- The store after owner X uploads a.png twice with passphrase pw. -/
def storeDup : List StoredFile :=
  (uploadFiles (uploadFiles [] "X" reqSingleA "pw").2 "X" reqSingleA "pw").2

/-- Counterexample to C5 as stated: with (X, a.png) already stored, a
second upload of a.png by X succeeds with 200 instead of failing with
ConflictError, and afterwards two stored objects carry the (X, a.png)
pair — so (owner, filename) does not uniquely identify an object. -/
theorem c5_counterexample_duplicate_no_conflict :
    (uploadFiles (uploadFiles [] "X" reqSingleA "pw").2 "X" reqSingleA "pw").1
      = HRes.success 200 ∧
    (findByOwnerAndName storeDup "X" "a.png").length = 2 :=
  ⟨rfl, rfl⟩

/-- C5 amended: `uploadFiles` performs no duplicate check at all — an
upload targeting an (ownerId, filename) that already exists succeeds
with 200 and stores an additional object with the same (owner,
filename) pair, growing the number of objects carrying that pair by
exactly one; no ConflictError exists in the handler. -/
theorem c5_upload_never_conflicts (store : List StoredFile) (X : String)
    (f : UploadedFile) (pass : String) :
    (uploadFiles store X ⟨some ⟨FileField.single f⟩⟩ pass).1 = HRes.success 200 ∧
    (findByOwnerAndName (uploadFiles store X ⟨some ⟨FileField.single f⟩⟩ pass).2 X f.name).length
      = (findByOwnerAndName store X f.name).length + 1 := by
  rw [uploadFiles_single_eq]
  refine ⟨rfl, ?_⟩
  rw [uploadOne_ownerId]
  unfold findByOwnerAndName
  rw [List.filter_append, List.length_append]
  simp [List.filter]

/-- Counterexample to C7 as stated: in the duplicate store reachable by
uploading a.png twice, deleting (X, a.png) succeeds but removes only the
first matching object, and a subsequent download of the same (owner,
filename) still streams the plaintext of the surviving duplicate instead of
failing with the 404 Not found error. -/
theorem c7_counterexample_delete_leaves_duplicate :
    (deleteFile storeDup "X" "a.png").1 = HRes.success 200 ∧
    download (deleteFile storeDup "X" "a.png").2 "X" "a.png" "pw"
      = DlRes.sent false [137, 80, 78, 71, 1, 2] ∧
    DlRes.sent false [137, 80, 78, 71, 1, 2] ≠ DlRes.appErr "Not found!" 404 :=
  ⟨rfl, rfl, by decide⟩

/-- C7 amended: when exactly one stored object carries the requested
(owner, filename) pair, delete succeeds (removing the document and
chunks of that object as a unit) and a subsequent download of the same
pair fails with the 404 Not found error. -/
theorem c7_delete_unique_then_download_not_found (store : List StoredFile)
    (X name pass : String) (f : StoredFile)
    (huniq : findByOwnerAndName store X name = [f]) :
    (deleteFile store X name).1 = HRes.success 200 ∧
    download (deleteFile store X name).2 X name pass
      = DlRes.appErr "Not found!" 404 := by
  have hfmem : f ∈ findByOwnerAndName store X name := by
    rw [huniq]; exact List.mem_singleton_self f
  rw [findByOwnerAndName] at hfmem
  have hfprop := List.mem_filter.mp hfmem
  have hfX : f.ownerId = X := (of_decide_eq_true hfprop.2).1
  have hcond : ¬(f.ownerId ≠ X) := by simp [hfX]
  have hempty :
      findByOwnerAndName (store.filter (fun g => g.fileId ≠ f.fileId)) X name = [] := by
    rw [findByOwnerAndName, List.filter_eq_nil_iff]
    intro g hg
    obtain ⟨hgs, hgid⟩ := List.mem_filter.mp hg
    intro hpg
    have hpg' := of_decide_eq_true hpg
    have hgmem : g ∈ findByOwnerAndName store X name := by
      rw [findByOwnerAndName]
      exact List.mem_filter.mpr ⟨hgs, decide_eq_true hpg'⟩
    rw [huniq, List.mem_singleton] at hgmem
    subst hgmem
    exact of_decide_eq_true hgid rfl
  have hdel : deleteFile store X name
      = (HRes.success 200, store.filter (fun g => g.fileId ≠ f.fileId)) := by
    simp only [deleteFile, huniq]
    rw [if_neg hcond]
  rw [hdel]
  refine ⟨rfl, ?_⟩
  simp only [download, hempty]

/-- Witness for the amended C7 at a concrete input: the one-object
store owned by Y, deleted and re-queried by Y. -/
theorem c7_delete_unique_then_download_not_found_witness :
    (deleteFile storeOtherOwner "Y" "a.png").1 = HRes.success 200 ∧
    download (deleteFile storeOtherOwner "Y" "a.png").2 "Y" "a.png" "pw"
      = DlRes.appErr "Not found!" 404 :=
  c7_delete_unique_then_download_not_found storeOtherOwner "Y" "a.png" "pw" storedY rfl

theorem find?_map_updateTimes (kid : String) :
    ∀ (vault : List KeyRecord) (k : KeyRecord),
      List.find? (fun r => r.keyId = kid) vault = some k →
      List.find? (fun r => r.keyId = kid)
          (vault.map (fun r => if r.keyId = kid then { r with times := r.times + 1 } else r))
        = some { k with times := k.times + 1 } := by
  intro vault
  induction vault with
  | nil => intro k h; simp at h
  | cons a rest ih =>
      intro k h
      by_cases ha : a.keyId = kid
      · rw [List.find?_cons_of_pos _ (by simpa using ha)] at h
        injection h with h
        subst h
        rw [List.map_cons, if_pos ha]
        exact List.find?_cons_of_pos _ (by simpa using ha)
      · rw [List.find?_cons_of_neg _ (by simpa using ha)] at h
        rw [List.map_cons, if_neg ha, List.find?_cons_of_neg _ (by simpa using ha)]
        exact ih k h

theorem mem_incTimes_of_ne (vault : List KeyRecord) (kid : String) (r : KeyRecord)
    (hr : r ∈ vault) (hne : r.keyId ≠ kid) : r ∈ incTimes vault kid := by
  rw [incTimes]
  cases h : findKey vault kid with
  | none => exact List.mem_append_left _ hr
  | some k =>
      refine List.mem_map.mpr ⟨r, hr, ?_⟩
      exact if_neg hne

/-- C6: a passphrase verification against an existing key record
increments the `times` counter of that key by exactly 1 when the comparison
succeeds (the vault keeps its size and every other record survives
unchanged), and leaves the vault entirely unchanged when the comparison
fails — the handler returns before the `$inc` update. -/
theorem c6_usage_counter_increment (vault : List KeyRecord) (kid pass : String)
    (k : KeyRecord) (hkid : kid ≠ "") (hpass : pass ≠ "")
    (hfind : findKey vault kid = some k) :
    (correctPassphrase pass k.passphrase = true →
        (checkPassphrase vault (some kid) (some pass)).1 = HRes.nextOk ∧
        findKey (checkPassphrase vault (some kid) (some pass)).2 kid
          = some { k with times := k.times + 1 } ∧
        (checkPassphrase vault (some kid) (some pass)).2.length = vault.length ∧
        ∀ r ∈ vault, r.keyId ≠ kid →
          r ∈ (checkPassphrase vault (some kid) (some pass)).2) ∧
    (correctPassphrase pass k.passphrase = false →
        checkPassphrase vault (some kid) (some pass)
          = (HRes.appErr "Incorrect key passphrase" none, vault)) := by
  have hcp : checkPassphrase vault (some kid) (some pass)
      = if correctPassphrase pass k.passphrase then (HRes.nextOk, incTimes vault kid)
        else (HRes.appErr "Incorrect key passphrase" none, vault) := by
    simp only [checkPassphrase, hfind]
    rw [if_neg (by simp [hkid, hpass])]
  constructor
  · intro hok
    rw [hcp, if_pos hok]
    refine ⟨rfl, ?_, ?_, ?_⟩
    · show findKey (incTimes vault kid) kid = _
      rw [incTimes, hfind, findKey]
      exact find?_map_updateTimes kid vault k hfind
    · show (incTimes vault kid).length = vault.length
      simp [incTimes, hfind]
    · intro r hr hrne
      exact mem_incTimes_of_ne vault kid r hr hrne
  · intro hbad
    rw [hcp, if_neg (by simp [hbad])]

/-- A key record of owner Y whose stored hash is that of passphrase pw
and whose usage counter stands at 5. -/
def keyY : KeyRecord := ⟨"k1", "main", "Y", hashPassphrase "pw", 5⟩

/-- A one-record key vault. -/
def vaultY : List KeyRecord := [keyY]

/-- Witness for C6 at concrete inputs: verifying k1 with the correct
passphrase passes and moves its counter from 5 to 6; verifying with a
wrong passphrase errors and leaves the vault untouched. -/
theorem c6_usage_counter_increment_witness :
    (checkPassphrase vaultY (some "k1") (some "pw")).1 = HRes.nextOk ∧
    findKey (checkPassphrase vaultY (some "k1") (some "pw")).2 "k1"
      = some { keyY with times := keyY.times + 1 } ∧
    checkPassphrase vaultY (some "k1") (some "bad")
      = (HRes.appErr "Incorrect key passphrase" none, vaultY) := by
  have h1 := c6_usage_counter_increment vaultY "k1" "pw" keyY (by decide) (by decide) rfl
  have h2 := c6_usage_counter_increment vaultY "k1" "bad" keyY (by decide) (by decide) rfl
  have hok : correctPassphrase "pw" keyY.passphrase = true := by decide
  have hbad : correctPassphrase "bad" keyY.passphrase = false := by decide
  obtain ⟨ha, hb, _, _⟩ := h1.1 hok
  exact ⟨ha, hb, h2.2 hbad⟩

/-- C8 (documents the code bug): a verification request whose key id
matches no stored record does not fail with a distinct NotFoundError —
`Key.findOne` yields null and the subsequent `key.correctPassphrase`
call throws a TypeError, surfaced by `catchAsync` as a generic failure,
with the vault left unchanged. -/
theorem c8_unknown_key_generic_failure :
    checkPassphrase vaultY (some "k404") (some "pw")
      = (HRes.thrown "TypeError: cannot read correctPassphrase of null", vaultY) ∧
    HRes.thrown "TypeError: cannot read correctPassphrase of null"
      ≠ HRes.appErr "Not found!" (some 404) :=
  ⟨rfl, by decide⟩

/-- C9: every file document returned by the `getAll` listing of owner X
carries owner X in its metadata — the query
`find({"metadata.id": id})` filters by the caller identity, so no
object of another owner ever appears in the listing. -/
theorem c9_listing_owner_scoped (store : List StoredFile) (X : String)
    (files : List StoredFile) (h : getAll store X = Except.ok files) :
    ∀ g ∈ files, g.ownerId = X := by
  simp only [getAll] at h
  by_cases he : (store.filter (fun f => f.ownerId = X)).isEmpty
  · rw [if_pos he] at h
    cases h
  · rw [if_neg he] at h
    injection h with h
    subst h
    intro g hg
    exact of_decide_eq_true (List.mem_filter.mp hg).2

/-- Witness for C9 at a concrete input: listing Y over the one-object
store owned by Y returns exactly that object, and its owner is Y. -/
theorem c9_listing_owner_scoped_witness :
    getAll storeOtherOwner "Y" = Except.ok [storedY] ∧ storedY.ownerId = "Y" :=
  ⟨rfl, c9_listing_owner_scoped storeOtherOwner "Y" [storedY] rfl storedY
    (List.mem_singleton_self _)⟩

end CryptoDrive
